import Mathlib

/-!
Verification of the Seoul urban FAR-prediction atlas tile pipeline.

The development shallowly embeds the PMTiles build script
(`app/scripts/buildBuildingsPmtiles.mjs`), the dev-server tile middleware
(`app/vite.config.js`) and the client tile-bounds math (`app/src/loadData.js`).

Modelling conventions:
* JavaScript floating-point arithmetic on coordinates is modelled over `ℝ`
  (the projection formulas use `log`, `tan`, `cos`, `exp`, `atan`).
* Zoom levels are modelled as naturals (the slippy-map scheme only makes
  sense for integer zoom ≥ 0).
* External libraries (`geojson-vt`, `vt-pbf`, `@turf/bbox`, `s2-pmtiles`)
  are modelled as pure functions supplied through an environment record,
  as the spec treats them as external collaborators.
* Fallible code is modelled with `Except`; file-system output is modelled
  as the explicit list of files the build writes.
-/

namespace FarAtlas

/-! ## Coordinate / tile math (buildBuildingsPmtiles.mjs lines 90-120) -/

/-- `MAX_LATITUDE` constant from the build script (line 90). -/
def MAX_LATITUDE : ℝ := 85.0511287798066

/-- `clampLatitude(lat)` (line 92-94): clamp the latitude to `±MAX_LATITUDE`. -/
noncomputable def clampLatitude (lat : ℝ) : ℝ :=
  max (-MAX_LATITUDE) (min MAX_LATITUDE lat)

/-- `lonLatToTile(lon, lat, zoom)` (lines 96-107): slippy-map projection with
latitude clamped before projecting and both indices clamped to
`[0, 2^zoom - 1]`.  `Math.floor` on a float is modelled by `Int.floor`. -/
noncomputable def lonLatToTile (lon lat : ℝ) (zoom : ℕ) : ℤ × ℤ :=
  let n : ℝ := 2 ^ zoom
  let clampedLat := clampLatitude lat
  let x : ℤ := ⌊(lon + 180) / 360 * n⌋
  let latRad : ℝ := clampedLat * Real.pi / 180
  let y : ℤ :=
    ⌊(1 - Real.log (Real.tan latRad + 1 / Real.cos latRad) / Real.pi) / 2 * n⌋
  (max 0 (min (2 ^ zoom - 1) x), max 0 (min (2 ^ zoom - 1) y))

/-- Result of `getTileRange` (lines 109-120). -/
structure TileRange where
  minX : ℤ
  maxX : ℤ
  minY : ℤ
  maxY : ℤ
deriving DecidableEq, Repr

/-- `getTileRange(bounds, zoom)` (lines 109-120): project the two opposite
corners of a `[minLon, minLat, maxLon, maxLat]` box and return the inclusive
tile-index rectangle. -/
noncomputable def getTileRange (bounds : ℝ × ℝ × ℝ × ℝ) (zoom : ℕ) : TileRange :=
  let minLon := bounds.1
  let minLat := bounds.2.1
  let maxLon := bounds.2.2.1
  let maxLat := bounds.2.2.2
  let topLeft := lonLatToTile minLon maxLat zoom
  let bottomRight := lonLatToTile maxLon minLat zoom
  { minX := min topLeft.1 bottomRight.1
    maxX := max topLeft.1 bottomRight.1
    minY := min topLeft.2 bottomRight.2
    maxY := max topLeft.2 bottomRight.2 }

/-! ## Inverse tile math (loadData.js lines 60-75) -/

/-- `lonFromTile(x, z)` (loadData.js line 60-62). -/
noncomputable def lonFromTile (x : ℝ) (z : ℕ) : ℝ :=
  x / 2 ^ z * 360 - 180

/-- `latFromTile(y, z)` (loadData.js lines 64-67). -/
noncomputable def latFromTile (y : ℝ) (z : ℕ) : ℝ :=
  let n : ℝ := Real.pi - 2 * Real.pi * y / 2 ^ z
  180 / Real.pi * Real.arctan (0.5 * (Real.exp n - Real.exp (-n)))

/-- `tileBounds({z,x,y})` (loadData.js lines 69-75): geographic
`(minLon, minLat, maxLon, maxLat)` of a tile. -/
noncomputable def tileBounds (z : ℕ) (x y : ℤ) : ℝ × ℝ × ℝ × ℝ :=
  (lonFromTile x z, latFromTile ((y : ℝ) + 1) z,
   lonFromTile ((x : ℝ) + 1) z, latFromTile (y : ℝ) z)

/-- A `[minLon, minLat, maxLon, maxLat]` box contains a point. -/
def bboxContains (b : ℝ × ℝ × ℝ × ℝ) (lon lat : ℝ) : Prop :=
  b.1 ≤ lon ∧ lon ≤ b.2.2.1 ∧ b.2.1 ≤ lat ∧ lat ≤ b.2.2.2

/-- The exact latitude at which the Web-Mercator `y` coordinate reaches the
tile edge; the script's `MAX_LATITUDE` is a decimal approximation of it. -/
noncomputable def maxMercatorLat : ℝ :=
  180 / Real.pi * Real.arctan (Real.sinh Real.pi)

/-- A latitude lies in the non-clamped Mercator range: it is not altered by
`clampLatitude` and its Mercator image lies within the world tile. -/
noncomputable def nonClampedLat (lat : ℝ) : Prop :=
  |lat| ≤ MAX_LATITUDE ∧ |lat| ≤ maxMercatorLat

/-! ## Field type detection (buildBuildingsPmtiles.mjs lines 126-144) -/

/-- A scalar JSON property value as found in feature `properties`.
`jsNull` covers both JavaScript `null` and `undefined` (the code's
`value == null` test matches both). -/
inductive JsValue where
  | jsNull : JsValue
  | jsNum : ℚ → JsValue
  | jsBool : Bool → JsValue
  | jsStr : String → JsValue
deriving DecidableEq, Repr

/-- One GeoJSON feature as the build script sees it: an optional flat
property object, modelled as an association list in insertion order
(`Object.entries` iteration order).  `none` models a feature whose
`properties` is `null`/`undefined` (the `if (!props) continue` branch). -/
structure Feature where
  properties : Option (List (String × JsValue))
deriving DecidableEq, Repr

/-- The type name assigned by `detectFieldTypes` to a non-null value:
`typeof value === 'number' ? 'Float' : typeof value === 'boolean' ?
'Boolean' : 'String'` (lines 136-139). -/
def jsTypeName : JsValue → String
  | .jsNum _ => "Float"
  | .jsBool _ => "Boolean"
  | _ => "String"

/-- Property names of `Object.prototype`.  Plain-object property reads in
the script consult the prototype chain, so these names behave as present
on any `{}`-literal object: both the `key in DEFAULTS` test of
`parseArgs` (line 61) and the truthiness test `types[key]` of
`detectFieldTypes` (line 134) accept them. -/
def objectProtoKeys : List String :=
  ["constructor", "hasOwnProperty", "isPrototypeOf", "propertyIsEnumerable",
   "toLocaleString", "toString", "valueOf", "__defineGetter__",
   "__defineSetter__", "__lookupGetter__", "__lookupSetter__", "__proto__"]

/-- Inner loop of `detectFieldTypes` (lines 133-140): for each property
entry, skip it when `types[key]` is truthy or the value is null, otherwise
record the inferred type.  `types[key]` is truthy when the key already has
an assigned type (all assigned values are non-empty strings) and also — via
the prototype chain of the `{}` literal `types` — when the key names an
`Object.prototype` property, so such keys are never assigned a type.
Appending keeps insertion order. -/
def detectEntry (types : List (String × String)) (e : String × JsValue) :
    List (String × String) :=
  if (types.lookup e.1).isSome ∨ objectProtoKeys.contains e.1 ∨
      e.2 = JsValue.jsNull then types
  else types ++ [(e.1, jsTypeName e.2)]

/-- Per-feature step of `detectFieldTypes` (lines 130-141): features
without a property object contribute nothing. -/
def detectFeature (types : List (String × String)) (f : Feature) :
    List (String × String) :=
  match f.properties with
  | none => types
  | some entries => entries.foldl detectEntry types

/-- `detectFieldTypes(features, sampleSize = 1000)` (lines 126-144): scan
the first `min(features.length, sampleSize)` features and build the
field-name → type-name dictionary. -/
def detectFieldTypes (features : List Feature) (sampleSize : ℕ := 1000) :
    List (String × String) :=
  (features.take sampleSize).foldl detectFeature []

/-- The type name the inner detection loop would record for key `k` at
entry `e`. -/
def pickType (k : String) (e : String × JsValue) : Option String :=
  if e.1 = k ∧ e.2 ≠ JsValue.jsNull then some (jsTypeName e.2) else none

/-- The value the specification-side scan records for key `k` at entry
`e`. -/
def pickVal (k : String) (e : String × JsValue) : Option JsValue :=
  if e.1 = k ∧ e.2 ≠ JsValue.jsNull then some e.2 else none

/-- Specification-side helper: the first non-null value recorded for key
`k` while scanning `fs` in order (a feature without properties yields
nothing; within a feature, entries are scanned in insertion order). -/
def firstNonNullValue (k : String) (fs : List Feature) : Option JsValue :=
  fs.findSome? fun f => (f.properties.getD []).findSome? (pickVal k)

/-! ## CLI argument parsing (buildBuildingsPmtiles.mjs lines 28-84)

`DEFAULTS` has three numeric options and five string options.  Values of
numeric options go through JavaScript `Number(...)`, modelled by an
abstract `parseNum : String → Option ℚ` returning `none` when the result
is not finite (`NaN`/`±Infinity`); exact floats are rationals.  Path
resolution (`resolve(__dirname, ...)`) is modelled by an abstract
`resolvePath`.  Writes to keys outside the record's own fields land in the
`extra` association list (shadowing own properties of the result object);
the exotic setter semantics of assigning `__proto__` is not modelled. -/

/-- The mutable `args` object: `{...DEFAULTS}` plus any extra own
properties created by assignment. -/
structure CliArgs where
  input : String
  output : String
  layer : String
  name : String
  description : String
  minzoom : ℚ
  maxzoom : ℚ
  summaryzoom : ℚ
  extra : List (String × String)
deriving DecidableEq, Repr

/-- The `DEFAULTS` literal (lines 28-37). -/
def defaultArgs : CliArgs where
  input := "../../buildings_merged.geojson"
  output := "../buildings.pmtiles"
  layer := "buildings"
  name := "Seoul FAR Buildings"
  description := "Building footprints with FAR predictions converted from GeoJSON to PMTiles."
  minzoom := 12
  maxzoom := 13
  summaryzoom := 13
  extra := []

/-- Keys of `DEFAULTS` whose value is a number. -/
def numericKeys : List String := ["minzoom", "maxzoom", "summaryzoom"]

/-- Keys of `DEFAULTS` whose value is a string. -/
def stringKeys : List String := ["input", "output", "layer", "name", "description"]

/-- `key in DEFAULTS` (line 61): own keys or inherited `Object.prototype`
properties (the `in` operator consults the prototype chain, see
`objectProtoKeys`). -/
def keyInDefaults (k : String) : Bool :=
  numericKeys.contains k || stringKeys.contains k || objectProtoKeys.contains k

/-- `typeof DEFAULTS[key] === 'number'` (line 65): true exactly for the
three numeric own keys (inherited properties are functions or accessors). -/
def keyIsNumeric (k : String) : Bool :=
  numericKeys.contains k

/-- Update-or-append on an association list (JS object assignment). -/
def updateAssoc (l : List (String × String)) (k v : String) :
    List (String × String) :=
  if (l.lookup k).isSome then
    l.map fun p => if p.1 = k then (k, v) else p
  else l ++ [(k, v)]

/-- `args[key] = parsed` for a numeric own key (line 70). -/
def setNumArg (a : CliArgs) (k : String) (q : ℚ) : CliArgs :=
  if k = "minzoom" then { a with minzoom := q }
  else if k = "maxzoom" then { a with maxzoom := q }
  else if k = "summaryzoom" then { a with summaryzoom := q }
  else a

/-- `args[key] = value` for a non-numeric key (line 76): one of the five
string own fields, or a fresh own property shadowing an inherited one. -/
def setStrArg (a : CliArgs) (k v : String) : CliArgs :=
  if k = "input" then { a with input := v }
  else if k = "output" then { a with output := v }
  else if k = "layer" then { a with layer := v }
  else if k = "name" then { a with name := v }
  else if k = "description" then { a with description := v }
  else { a with extra := updateAssoc a.extra k v }

/-- `s.startsWith('--')`, written out on the character list so that it
evaluates inside the kernel. -/
def startsDashDash (s : String) : Bool :=
  match s.data with
  | '-' :: '-' :: _ => true
  | _ => false

/-- The `for` loop of `parseArgs` (lines 54-79).  An argument not starting
with `--` is skipped; an unknown key (per `keyInDefaults`) throws; a
numeric key consumes the next argument through `Number(...)` (absent
next argument = `Number(undefined)` = `NaN`); a string key requires a
truthy next argument that does not itself start with `--`. -/
def parseArgsLoop (parseNum : String → Option ℚ) :
    CliArgs → List String → Except String CliArgs
  | args, [] => Except.ok args
  | args, arg :: rest =>
    if ¬ startsDashDash arg then parseArgsLoop parseNum args rest
    else
      let key := arg.drop 2
      if ¬ keyInDefaults key then
        Except.error ("Unknown option: --" ++ key)
      else if keyIsNumeric key then
        match rest with
        | [] => Except.error ("Expected number for --" ++ key ++ ", got: undefined")
        | v :: rest' =>
          match parseNum v with
          | none => Except.error ("Expected number for --" ++ key ++ ", got: " ++ v)
          | some q => parseArgsLoop parseNum (setNumArg args key q) rest'
      else
        match rest with
        | [] => Except.error ("Missing value for --" ++ key)
        | v :: rest' =>
          if v = "" ∨ startsDashDash v then
            Except.error ("Missing value for --" ++ key)
          else parseArgsLoop parseNum (setStrArg args key v) rest'

/-- `parseArgs(argv)` (lines 51-84): run the loop from the defaults, then
resolve the input/output paths. -/
def parseArgs (parseNum : String → Option ℚ) (resolvePath : String → String)
    (argv : List String) : Except String CliArgs :=
  (parseArgsLoop parseNum defaultArgs argv).map fun a =>
    { a with input := resolvePath a.input, output := resolvePath a.output }

/-! ## Tile server middleware (vite.config.js lines 115-257)

The middleware is modelled from the request pathname on (the code first
derives `pathname` from `req.url` via `new URL`).  The archive reader,
the metadata/summary fetches and the header fetch are modelled as the
outcomes the corresponding `await` would produce, supplied in an
environment record; byte payloads are `List ℕ`. -/

/-- Outcome of one middleware invocation. -/
inductive MWResult where
  /-- `next()` was called; no response was written. -/
  | next : MWResult
  /-- a JSON body answered with status 200 (`metadata.json`/`summary.json`). -/
  | jsonRes : String → MWResult
  /-- a binary tile answered with status 200 and explicit length. -/
  | tileRes : List ℕ → MWResult
  /-- status 204, empty body (`!tile` branch, line 228-231). -/
  | noContent : MWResult
  /-- status 500, empty body (any `catch` branch). -/
  | serverError : MWResult
deriving DecidableEq, Repr

/-- Environment of one archive handler: whether a summary sidecar is
configured and what each underlying fetch would yield. -/
structure MWEnv where
  summaryConfigured : Bool
  metadataRes : Except String String
  summaryRes : Except String String
  headerRes : Except String Unit
  tileRes : ℕ → ℕ → ℕ → Except String (Option (List ℕ))

/-- Split a character list at every `'/'`, keeping empty segments. -/
def splitSlash : List Char → List (List Char)
  | [] => [[]]
  | c :: cs =>
    let rest := splitSlash cs
    if c = '/' then [] :: rest
    else
      match rest with
      | [] => [[c]]
      | s :: ss => (c :: s) :: ss

/-- `\d+` followed by `Number(...)`: the numeric value of a non-empty
all-digit segment, `none` otherwise. -/
def digitsToNat : List Char → Option ℕ
  | [] => none
  | cs =>
    cs.foldl
      (fun acc c =>
        acc.bind fun n => if c.isDigit then some (n * 10 + (c.toNat - 48)) else none)
      (some 0)

/-- Strip a final `.pbf`, failing when the suffix is absent. -/
def stripPbfSuffix (cs : List Char) : Option (List Char) :=
  match cs.reverse with
  | 'f' :: 'b' :: 'p' :: '.' :: rest => some rest.reverse
  | _ => none

/-- The regex `^\/(\d+)\/(\d+)\/(\d+)\.pbf$` (line 213): an empty leading
segment then exactly three non-empty digit segments, the last suffixed
`.pbf`; the three captures go through `Number(...)`. -/
def parseTilePath (pathname : String) : Option (ℕ × ℕ × ℕ) :=
  match splitSlash pathname.data with
  | [lead, a, b, c] =>
    if lead = [] then
      match digitsToNat a, digitsToNat b, (stripPbfSuffix c).bind digitsToNat with
      | some z, some x, some y => some (z, x, y)
      | _, _, _ => none
    else none
  | _ => none

/-- The middleware body (lines 167-249), from the parsed pathname on. -/
def middleware (env : MWEnv) (pathname : String) : MWResult :=
  if pathname = "/metadata.json" then
    match env.metadataRes with
    | Except.ok m => MWResult.jsonRes m
    | Except.error _ => MWResult.serverError
  else if env.summaryConfigured ∧ pathname = "/summary.json" then
    match env.summaryRes with
    | Except.ok s => MWResult.jsonRes s
    | Except.error _ => MWResult.serverError
  else
    match parseTilePath pathname with
    | none => MWResult.next
    | some (z, x, y) =>
      match env.headerRes with
      | Except.error _ => MWResult.serverError
      | Except.ok _ =>
        match env.tileRes z x y with
        | Except.error _ => MWResult.serverError
        | Except.ok none => MWResult.noContent
        | Except.ok (some bytes) => MWResult.tileRes bytes

/-! ## Single-flight caches (vite.config.js lines 121-165)

Each handler keeps `headerPromise` / `metadataPromise` / `summaryPromise`.
A call fetches only when the cell is empty; `getMetadata` and
`getSummary` clear the cell again when the fetch fails, `getHeader`
caches even a failed outcome.  The sequential abstraction stores the
settled outcome of the promise and counts how many underlying fetches
were issued.  The `fetch` argument of each step is the outcome the
underlying read would produce if it were issued by this call. -/

/-- A cache cell plus an instrumentation counter of issued fetches. -/
structure CacheSt (α : Type) where
  cached : Option α
  fetches : ℕ
deriving DecidableEq, Repr

/-- `getHeader` (lines 125-138): populate the cell on first call (even
with a failed outcome), afterwards return the cell. -/
def getHeaderStep (fetch : Except String ℕ) (s : CacheSt (Except String ℕ)) :
    CacheSt (Except String ℕ) × Except String ℕ :=
  match s.cached with
  | some r => (s, r)
  | none => ({ cached := some fetch, fetches := s.fetches + 1 }, fetch)

/-- `getMetadata` (lines 140-148): populate the cell on first call; a
failed fetch resets the cell to empty and surfaces the error. -/
def getMetadataStep (fetch : Except String ℕ) (s : CacheSt ℕ) :
    CacheSt ℕ × Except String ℕ :=
  match s.cached with
  | some v => (s, Except.ok v)
  | none =>
    match fetch with
    | Except.ok v => ({ cached := some v, fetches := s.fetches + 1 }, Except.ok v)
    | Except.error e => ({ cached := none, fetches := s.fetches + 1 }, Except.error e)

/-- `getSummary` (lines 150-165): with no sidecar configured it returns
`null` without fetching; otherwise it behaves like `getMetadata`. -/
def getSummaryStep (configured : Bool) (fetch : Except String ℕ)
    (s : CacheSt ℕ) : CacheSt ℕ × Except String (Option ℕ) :=
  if ¬ configured then (s, Except.ok none)
  else
    match s.cached with
    | some v => (s, Except.ok (some v))
    | none =>
      match fetch with
      | Except.ok v =>
        ({ cached := some v, fetches := s.fetches + 1 }, Except.ok (some v))
      | Except.error e =>
        ({ cached := none, fetches := s.fetches + 1 }, Except.error e)

/-! ## The PMTiles build (buildBuildingsPmtiles.mjs lines 150-247)

External collaborators are supplied through `BuildEnv`:
* `bbox` models `turfBbox(geojson)`;
* `getTileIdx` models `geojsonvt(geojson, {...}).getTile(z, x, y)` for the
  index built with the given `minZoom`/`maxZoom` (a `null` tile is `none`);
* `encode` models `vtpbf.fromGeojsonVt({[layer]: tile}, {version: 2})`;
* `finalize` models `S2PMTilesWriter` draining the recorded tile writes
  plus the metadata block into the final archive bytes.
The spec requires these library calls to be deterministic, so modelling
them as pure functions is faithful.  File-system output is the returned
list of writes; the build's `mkdir` is not an output file. -/

/-- An indexed tile as returned by `geojson-vt`: its feature list (feature
content is opaque to the build loop, which only tests emptiness). -/
structure IdxTile where
  tfeatures : List ℕ
deriving DecidableEq, Repr

/-- The parsed input JSON as far as the build inspects it: its `type` tag
and its `features` member (`none` models a missing/non-array member). -/
structure GeoInput where
  typ : String
  features : Option (List Feature)
deriving DecidableEq, Repr

/-- Build options after CLI parsing (zoom levels are naturals; the CLI
model keeps the raw numeric values as `ℚ`, the build is only exercised at
integral zoom levels). -/
structure BuildOptions where
  output : String
  layer : String
  name : String
  description : String
  minzoom : ℕ
  maxzoom : ℕ
  summaryzoom : ℕ
deriving DecidableEq, Repr

/-- One recorded tile write: `(z, x, y, encodedBytes)`. -/
abbrev TileWrite : Type := ℕ × ℤ × ℤ × List ℕ

/-- The metadata object passed to `writer.commit` (lines 203-220). -/
structure Metadata where
  tilejson : String
  name : String
  description : String
  version : String
  minzoom : ℕ
  maxzoom : ℕ
  summaryzoom : ℕ
  bounds : ℝ × ℝ × ℝ × ℝ
  layerId : String
  layerFields : List (String × String)

/-- The summary sidecar object (lines 229-242). -/
structure SummaryS where
  tiles : ℕ
  tileCoords : List (ℕ × ℤ × ℤ)
  output : String
  size : ℕ
  layer : String
  bounds : ℝ × ℝ × ℝ × ℝ
  minzoom : ℕ
  maxzoom : ℕ
  summaryzoom : ℕ
  fields : List (String × String)
  geojsonFeatures : ℕ
  tileVersion : ℕ

/-- Content of a written output file. -/
inductive FileContent where
  | bin : List ℕ → FileContent
  | json : SummaryS → FileContent

/-- A performed `writeFile` call: path and content. -/
abbrev FileWrite : Type := String × FileContent

/-- The external collaborators of the build. -/
structure BuildEnv where
  bbox : GeoInput → ℝ × ℝ × ℝ × ℝ
  getTileIdx : GeoInput → ℕ → ℕ → ℕ → ℤ → ℤ → Option IdxTile
  encode : String → IdxTile → List ℕ
  finalize : Metadata → List TileWrite → List ℕ

/-- Inclusive range `[a..b]` of naturals (`for (let z = a; z <= b; z++)`). -/
def natRangeIncl (a b : ℕ) : List ℕ :=
  (List.range (b + 1 - a)).map (a + ·)

/-- Inclusive range `[a..b]` of integers (the x/y loops). -/
def intRangeIncl (a b : ℤ) : List ℤ :=
  (List.range (b + 1 - a).toNat).map (fun i => a + (i : ℤ))

/-- The `(z, x, y)` coordinates the build loop visits, in visit order
(lines 177-182): for each zoom of the range, the tile rectangle covering
the dataset bounds. -/
noncomputable def scanCoords (env : BuildEnv) (input : GeoInput)
    (o : BuildOptions) : List (ℕ × ℤ × ℤ) :=
  (natRangeIncl o.minzoom o.maxzoom).flatMap fun z =>
    let range := getTileRange (env.bbox input) z
    (intRangeIncl range.minX range.maxX).flatMap fun x =>
      (intRangeIncl range.minY range.maxY).map fun y => (z, x, y)

/-- `Math.min(Math.max(options.summaryzoom, options.minzoom), options.maxzoom)`
(line 162). -/
def summaryZoomOf (o : BuildOptions) : ℕ :=
  min (max o.summaryzoom o.minzoom) o.maxzoom

/-- Body of the innermost loop (lines 183-193): skip an absent or empty
tile, otherwise record its encoded write and, at the summary zoom, its
coordinate. -/
def buildStep (idx : ℕ → ℤ → ℤ → Option IdxTile) (enc : IdxTile → List ℕ)
    (sz : ℕ) (acc : List TileWrite × List (ℕ × ℤ × ℤ)) (c : ℕ × ℤ × ℤ) :
    List TileWrite × List (ℕ × ℤ × ℤ) :=
  match idx c.1 c.2.1 c.2.2 with
  | none => acc
  | some t =>
    if t.tfeatures = [] then acc
    else
      (acc.1 ++ [(c.1, c.2.1, c.2.2, enc t)],
       if c.1 = sz then acc.2 ++ [(c.1, c.2.1, c.2.2)] else acc.2)

/-- The whole tile-writing loop (lines 174-195): the recorded tile writes
and the summary-zoom coordinates. -/
noncomputable def buildLoop (env : BuildEnv) (input : GeoInput)
    (o : BuildOptions) : List TileWrite × List (ℕ × ℤ × ℤ) :=
  (scanCoords env input o).foldl
    (buildStep (env.getTileIdx input o.minzoom o.maxzoom)
      (env.encode o.layer) (summaryZoomOf o))
    ([], [])

/-- `buildPmtiles(options)` (lines 150-247): validate the input shape, run
the tile loop, fail when no tile was produced, otherwise derive the field
dictionary, finalize the archive and return the written files together
with the summary.  Error paths write nothing. -/
noncomputable def buildPmtiles (env : BuildEnv) (input : GeoInput)
    (o : BuildOptions) : List FileWrite × Except String SummaryS :=
  if input.typ = "FeatureCollection" ∧ input.features.isSome then
    let feats := input.features.getD []
    let bounds := env.bbox input
    let res := buildLoop env input o
    if res.1.length = 0 then
      ([], Except.error "No tiles generated - check input data and zoom levels")
    else
      let fields := detectFieldTypes feats 1000
      let md : Metadata :=
        { tilejson := "3.0.0", name := o.name, description := o.description
          version := "1.0.0", minzoom := o.minzoom, maxzoom := o.maxzoom
          summaryzoom := summaryZoomOf o, bounds := bounds
          layerId := o.layer, layerFields := fields }
      let pmtilesBytes := env.finalize md res.1
      let summary : SummaryS :=
        { tiles := res.1.length, tileCoords := res.2, output := o.output
          size := pmtilesBytes.length, layer := o.layer, bounds := bounds
          minzoom := o.minzoom, maxzoom := o.maxzoom
          summaryzoom := summaryZoomOf o, fields := fields
          geojsonFeatures := feats.length, tileVersion := 2 }
      ([(o.output, FileContent.bin pmtilesBytes),
        (o.output ++ ".json", FileContent.json summary)],
       Except.ok summary)
  else ([], Except.error "Input must be a valid GeoJSON FeatureCollection")

/-! ## Concrete fixtures used to exercise the models -/

/-- A middleware environment whose archive has no tiles at all. -/
def mwEnvEmpty : MWEnv where
  summaryConfigured := true
  metadataRes := Except.ok "{}"
  summaryRes := Except.ok "{}"
  headerRes := Except.ok ()
  tileRes := fun _ _ _ => Except.ok none

/-- A build environment with a constant zero bounding box, a single
non-empty indexed tile everywhere, and trivial encode/finalize bytes. -/
noncomputable def envUnit : BuildEnv where
  bbox := fun _ => ((0 : ℝ), 0, 0, 0)
  getTileIdx := fun _ _ _ _ _ _ => some { tfeatures := [7] }
  encode := fun _ _ => [1]
  finalize := fun _ _ => [5]

/-- A minimal well-formed input: an empty feature collection. -/
def geoInputOk : GeoInput where
  typ := "FeatureCollection"
  features := some []

/-- The malformed-input scenario from the spec. -/
def geoInputBad : GeoInput where
  typ := "NotAFeatureCollection"
  features := some []

/-- Options pinning the whole build to zoom 0 with an out-of-range
summary zoom. -/
def buildOptsZ0 : BuildOptions where
  output := "out.pmtiles"
  layer := "buildings"
  name := "n"
  description := "d"
  minzoom := 0
  maxzoom := 0
  summaryzoom := 5

/-- The summary the zoom-0 build on `envUnit`/`geoInputOk` produces. -/
noncomputable def summaryZ0 : SummaryS where
  tiles := 1
  tileCoords := [(0, 0, 0)]
  output := "out.pmtiles"
  size := 1
  layer := "buildings"
  bounds := ((0 : ℝ), 0, 0, 0)
  minzoom := 0
  maxzoom := 0
  summaryzoom := 0
  fields := []
  geojsonFeatures := 0
  tileVersion := 2

/-! ## C5: latitude clamp and tile-index clamp -/

lemma MAX_LATITUDE_pos : (0 : ℝ) < MAX_LATITUDE := by norm_num [MAX_LATITUDE]

lemma clampLatitude_idem (lat : ℝ) :
    clampLatitude (clampLatitude lat) = clampLatitude lat := by
  unfold clampLatitude
  have hM : -MAX_LATITUDE ≤ MAX_LATITUDE := by linarith [MAX_LATITUDE_pos]
  have h1 : max (-MAX_LATITUDE) (min MAX_LATITUDE lat) ≤ MAX_LATITUDE :=
    max_le hM (min_le_left _ _)
  rw [min_eq_right h1, ← max_assoc, max_self]

lemma clampIdx_bounds (z : ℕ) (w : ℤ) :
    0 ≤ max 0 (min ((2 : ℤ) ^ z - 1) w) ∧
    max 0 (min ((2 : ℤ) ^ z - 1) w) ≤ 2 ^ z - 1 := by
  refine ⟨le_max_left _ _, ?_⟩
  have h : (0 : ℤ) ≤ 2 ^ z - 1 := by
    have := pow_pos (show (0 : ℤ) < 2 by norm_num) z
    omega
  exact max_le h (min_le_left _ _)

/-- C5: for every longitude, latitude and zoom, `lonLatToTile` first clamps
the latitude to `±85.0511°` (projecting the clamped latitude gives the same
result) and returns `x` and `y` clamped into `[0, 2^zoom - 1]`. -/
theorem lonLatToTile_clamps (lon lat : ℝ) (z : ℕ) :
    lonLatToTile lon lat z = lonLatToTile lon (clampLatitude lat) z ∧
    0 ≤ (lonLatToTile lon lat z).1 ∧ (lonLatToTile lon lat z).1 ≤ 2 ^ z - 1 ∧
    0 ≤ (lonLatToTile lon lat z).2 ∧ (lonLatToTile lon lat z).2 ≤ 2 ^ z - 1 := by
  refine ⟨?_, ?_, ?_, ?_, ?_⟩
  · unfold lonLatToTile
    rw [clampLatitude_idem]
  · exact (clampIdx_bounds z _).1
  · exact (clampIdx_bounds z _).2
  · exact (clampIdx_bounds z _).1
  · exact (clampIdx_bounds z _).2

/-! ## C7: field-type detection -/

lemma lookup_append (l₁ l₂ : List (String × String)) (k : String) :
    (l₁ ++ l₂).lookup k = (l₁.lookup k).or (l₂.lookup k) := by
  induction l₁ with
  | nil => simp
  | cons p l ih =>
    obtain ⟨a, b⟩ := p
    rw [List.cons_append, List.lookup_cons, List.lookup_cons]
    cases h : (k == a) with
    | true => simp
    | false => simpa using ih

lemma option_map_or {α β : Type} (f : α → β) (a b : Option α) :
    (a.or b).map f = (a.map f).or (b.map f) := by
  cases a <;> rfl

lemma findSome?_pickType_eq (k : String) (entries : List (String × JsValue)) :
    entries.findSome? (pickType k) =
      (entries.findSome? (pickVal k)).map jsTypeName := by
  induction entries with
  | nil => rfl
  | cons e rest ih =>
    rw [List.findSome?_cons, List.findSome?_cons]
    by_cases h : e.1 = k ∧ e.2 ≠ JsValue.jsNull
    · simp [pickType, pickVal, h]
    · simp only [pickType, pickVal, if_neg h]
      exact ih

lemma foldl_detectEntry_lookup (k : String)
    (hk : objectProtoKeys.contains k = false)
    (entries : List (String × JsValue)) :
    ∀ types : List (String × String),
      (entries.foldl detectEntry types).lookup k =
        (types.lookup k).or (entries.findSome? (pickType k)) := by
  induction entries with
  | nil => intro types; simp
  | cons e rest ih =>
    intro types
    rw [List.foldl_cons, ih, List.findSome?_cons]
    by_cases hskip : (types.lookup e.1).isSome ∨ objectProtoKeys.contains e.1 ∨
        e.2 = JsValue.jsNull
    · have hde : detectEntry types e = types := by
        unfold detectEntry
        rw [if_pos hskip]
      rw [hde]
      rcases hskip with hsome | hproto | hnull
      · by_cases hek : e.1 = k
        · subst hek
          rw [Option.or_of_isSome hsome, Option.or_of_isSome hsome]
        · have : pickType k e = none := by
            unfold pickType
            rw [if_neg (by tauto)]
          rw [this]
      · have hek : ¬ e.1 = k := by
          intro h
          rw [h, hk] at hproto
          exact Bool.noConfusion hproto
        have : pickType k e = none := by
          unfold pickType
          rw [if_neg (by tauto)]
        rw [this]
      · have : pickType k e = none := by
          unfold pickType
          rw [if_neg (by tauto)]
        rw [this]
    · have hde : detectEntry types e = types ++ [(e.1, jsTypeName e.2)] := by
        unfold detectEntry
        rw [if_neg hskip]
      push_neg at hskip
      obtain ⟨hnone, -, hnn⟩ := hskip
      have hnone' : types.lookup e.1 = none :=
        Option.not_isSome_iff_eq_none.mp (by simpa using hnone)
      rw [hde, lookup_append]
      by_cases hek : e.1 = k
      · subst hek
        have h1 : List.lookup e.1 [(e.1, jsTypeName e.2)] = some (jsTypeName e.2) := by
          simp [List.lookup_cons]
        have h2 : pickType e.1 e = some (jsTypeName e.2) := by
          unfold pickType
          rw [if_pos ⟨rfl, hnn⟩]
        rw [h1, h2, hnone']
        rfl
      · have h1 : List.lookup k [(e.1, jsTypeName e.2)] = none := by
          rw [List.lookup_cons,
            show (k == e.1) = false from beq_eq_false_iff_ne.mpr (Ne.symm hek)]
          rfl
        have h2 : pickType k e = none := by
          unfold pickType
          rw [if_neg (by tauto)]
        rw [h1, h2, Option.or_none]
lemma foldl_detectEntry_lookup_proto (k : String)
    (hk : objectProtoKeys.contains k = true)
    (entries : List (String × JsValue)) :
    ∀ types : List (String × String),
      (entries.foldl detectEntry types).lookup k = types.lookup k := by
  induction entries with
  | nil => intro types; rfl
  | cons e rest ih =>
    intro types
    rw [List.foldl_cons, ih]
    by_cases hskip : (types.lookup e.1).isSome ∨ objectProtoKeys.contains e.1 ∨
        e.2 = JsValue.jsNull
    · rw [show detectEntry types e = types from by unfold detectEntry; rw [if_pos hskip]]
    · have hde : detectEntry types e = types ++ [(e.1, jsTypeName e.2)] := by
        unfold detectEntry
        rw [if_neg hskip]
      push_neg at hskip
      have hek : ¬ e.1 = k := by
        intro h
        exact hskip.2.1 (by rw [h]; exact hk)
      rw [hde, lookup_append]
      rw [show List.lookup k [(e.1, jsTypeName e.2)] = none from by
        rw [List.lookup_cons,
          show (k == e.1) = false from beq_eq_false_iff_ne.mpr (Ne.symm hek)]
        rfl]
      rw [Option.or_none]
lemma foldl_detectFeature_lookup (k : String)
    (hk : objectProtoKeys.contains k = false) (fs : List Feature) :
    ∀ types : List (String × String),
      ((fs.foldl detectFeature types).lookup k) =
        (types.lookup k).or ((firstNonNullValue k fs).map jsTypeName) := by
  induction fs with
  | nil => intro types; simp [firstNonNullValue]
  | cons f rest ih =>
    intro types
    rw [List.foldl_cons]
    cases hp : f.properties with
    | none =>
      have hdf : detectFeature types f = types := by
        unfold detectFeature
        rw [hp]
      have hfnv : firstNonNullValue k (f :: rest) = firstNonNullValue k rest := by
        unfold firstNonNullValue
        rw [List.findSome?_cons, hp]
        rfl
      rw [hdf, ih, hfnv]
    | some entries =>
      have hdf : detectFeature types f = entries.foldl detectEntry types := by
        unfold detectFeature
        rw [hp]
      have hfnv : firstNonNullValue k (f :: rest) =
          (entries.findSome? (pickVal k)).or (firstNonNullValue k rest) := by
        unfold firstNonNullValue
        rw [List.findSome?_cons, hp,
          show (some entries).getD ([] : List (String × JsValue)) = entries from rfl]
        cases entries.findSome? (pickVal k) <;> rfl
      rw [hdf, ih, foldl_detectEntry_lookup k hk, findSome?_pickType_eq, hfnv,
        option_map_or, ← Option.or_assoc]
lemma foldl_detectFeature_lookup_proto (k : String)
    (hk : objectProtoKeys.contains k = true) (fs : List Feature) :
    ∀ types : List (String × String),
      ((fs.foldl detectFeature types).lookup k) = types.lookup k := by
  induction fs with
  | nil => intro types; rfl
  | cons f rest ih =>
    intro types
    rw [List.foldl_cons, ih]
    cases hp : f.properties with
    | none =>
      rw [show detectFeature types f = types from by unfold detectFeature; rw [hp]]
    | some entries =>
      rw [show detectFeature types f = entries.foldl detectEntry types from by
        unfold detectFeature; rw [hp]]
      exact foldl_detectEntry_lookup_proto k hk entries types

/-- Counterexample for C7: a property named `toString` collides with an
inherited `Object.prototype` member, so although its first non-null
sampled value exists (a string), `detectFieldTypes` assigns it no entry —
refuting the claim that each property name gets the type of its first
non-null sampled value. -/
theorem detectFieldTypes_proto_counterexample :
    (detectFieldTypes [{ properties := some [("toString", JsValue.jsStr "x")] }]
        1000).lookup "toString" = none ∧
    (firstNonNullValue "toString"
        (([{ properties := some [("toString", JsValue.jsStr "x")] }] :
          List Feature).take 1000)).map jsTypeName = some "String" :=
  ⟨rfl, rfl⟩

/-- C7 (amended): the field dictionary samples at most 1000 features and
maps each property name — except names colliding with `Object.prototype`
properties, which are never assigned because `types[key]` is truthy for
them via the prototype chain — to the type name of its first non-null
sampled value among the first 1000 features (so all-null keys and
property-less features contribute nothing, and an assigned type is never
changed by later samples). -/
theorem detectFieldTypes_first_nonnull (fs : List Feature) (k : String) :
    (detectFieldTypes fs 1000).lookup k =
      if objectProtoKeys.contains k then none
      else (firstNonNullValue k (fs.take 1000)).map jsTypeName := by
  unfold detectFieldTypes
  cases hk : objectProtoKeys.contains k with
  | true =>
    rw [if_pos rfl, foldl_detectFeature_lookup_proto k hk (fs.take 1000)]
    rfl
  | false =>
    rw [if_neg Bool.false_ne_true,
      foldl_detectFeature_lookup k hk (fs.take 1000)]
    simp

/-! ## C8: middleware routing distinctions -/

/-- C8: the middleware answers a well-shaped `z/x/y.pbf` request whose
coordinate has no archive entry with status 204 (no content, not an
error), and calls `next()` without writing a response for any path that
matches none of the tile, `metadata.json` or `summary.json` shapes. -/
theorem middleware_distinctions (env : MWEnv) (p : String) :
    (∀ z x y, parseTilePath p = some (z, x, y) → env.headerRes = Except.ok () →
        env.tileRes z x y = Except.ok none →
        middleware env p = MWResult.noContent) ∧
    (parseTilePath p = none → p ≠ "/metadata.json" →
        ¬ (env.summaryConfigured = true ∧ p = "/summary.json") →
        middleware env p = MWResult.next) := by
  constructor
  · intro z x y hp hh ht
    have hm : p ≠ "/metadata.json" := by
      intro h
      rw [h] at hp
      rw [show parseTilePath "/metadata.json" = none from by decide] at hp
      exact absurd hp (by simp)
    have hs : ¬ (env.summaryConfigured = true ∧ p = "/summary.json") := by
      rintro ⟨-, h⟩
      rw [h] at hp
      rw [show parseTilePath "/summary.json" = none from by decide] at hp
      exact absurd hp (by simp)
    simp only [middleware, if_neg hm, if_neg hs, hp, hh, ht]
  · intro hp hm hs
    simp only [middleware, if_neg hm, if_neg hs, hp]

/-- Witness for C8: on an empty archive, `/9/3/4.pbf` answers 204 and an
unmatched path falls through to `next`. -/
theorem middleware_distinctions_witness :
    middleware mwEnvEmpty "/9/3/4.pbf" = MWResult.noContent ∧
    middleware mwEnvEmpty "/weird" = MWResult.next :=
  ⟨(middleware_distinctions mwEnvEmpty "/9/3/4.pbf").1 9 3 4 (by decide) rfl rfl,
   (middleware_distinctions mwEnvEmpty "/weird").2 (by decide) (by decide)
     (by decide)⟩

/-! ## C9: single-flight caching -/

/-- C9: for each archive handler, once a call to `getHeader`,
`getMetadata` or `getSummary` has succeeded, a further call returns the
cached result unchanged and issues no new underlying read (the state,
including the fetch counter, is unchanged, and the result does not depend
on what a fresh fetch would return). -/
theorem cache_single_flight :
    (∀ (s s₁ : CacheSt (Except String ℕ)) (f₁ f₂ r : Except String ℕ) (v : ℕ),
        getHeaderStep f₁ s = (s₁, r) → r = Except.ok v →
        getHeaderStep f₂ s₁ = (s₁, r)) ∧
    (∀ (s s₁ : CacheSt ℕ) (f₁ f₂ r : Except String ℕ) (v : ℕ),
        getMetadataStep f₁ s = (s₁, r) → r = Except.ok v →
        getMetadataStep f₂ s₁ = (s₁, r)) ∧
    (∀ (cfg : Bool) (s s₁ : CacheSt ℕ) (f₁ f₂ : Except String ℕ)
        (r : Except String (Option ℕ)) (v : Option ℕ),
        getSummaryStep cfg f₁ s = (s₁, r) → r = Except.ok v →
        getSummaryStep cfg f₂ s₁ = (s₁, r)) := by
  refine ⟨?_, ?_, ?_⟩
  · intro s s₁ f₁ f₂ r v h _
    unfold getHeaderStep at h ⊢
    cases hc : s.cached with
    | some r₀ =>
      rw [hc] at h
      injection h with h₁ h₂
      subst h₁
      subst h₂
      rw [hc]
    | none =>
      rw [hc] at h
      injection h with h₁ h₂
      subst h₁
      subst h₂
      rfl
  · intro s s₁ f₁ f₂ r v h hok
    unfold getMetadataStep at h ⊢
    cases hc : s.cached with
    | some v₀ =>
      rw [hc] at h
      injection h with h₁ h₂
      subst h₁
      subst h₂
      rw [hc]
    | none =>
      rw [hc] at h
      cases f₁ with
      | ok w =>
        injection h with h₁ h₂
        subst h₁
        subst h₂
        rfl
      | error e =>
        injection h with h₁ h₂
        subst h₂
        exact absurd hok (by simp)
  · intro cfg s s₁ f₁ f₂ r v h hok
    cases cfg with
    | false =>
      unfold getSummaryStep at h ⊢
      rw [if_pos (show ¬ (false = true) by simp)] at h
      rw [if_pos (show ¬ (false = true) by simp)]
      injection h with h₁ h₂
      subst h₁
      subst h₂
      rfl
    | true =>
      unfold getSummaryStep at h ⊢
      rw [if_neg (show ¬ ¬ (true = true) by simp)] at h
      rw [if_neg (show ¬ ¬ (true = true) by simp)]
      cases hc : s.cached with
      | some v₀ =>
        rw [hc] at h
        injection h with h₁ h₂
        subst h₁
        subst h₂
        rw [hc]
      | none =>
        rw [hc] at h
        cases f₁ with
        | ok w =>
          injection h with h₁ h₂
          subst h₁
          subst h₂
          rfl
        | error e =>
          injection h with h₁ h₂
          subst h₂
          exact absurd hok (by simp)

/-- Witness for C9: after a first successful call (fetching 42), a second
call with a different would-be fetch outcome (43) still returns 42 and
leaves the fetch counter at 1. -/
theorem cache_single_flight_witness :
    getHeaderStep (Except.ok 43)
        { cached := some (Except.ok 42), fetches := 1 } =
      ({ cached := some (Except.ok 42), fetches := 1 }, Except.ok 42) ∧
    getMetadataStep (Except.ok 43) { cached := some 42, fetches := 1 } =
      ({ cached := some 42, fetches := 1 }, Except.ok 42) ∧
    getSummaryStep true (Except.ok 43) { cached := some 42, fetches := 1 } =
      ({ cached := some 42, fetches := 1 }, Except.ok (some 42)) :=
  ⟨cache_single_flight.1 { cached := none, fetches := 0 } _ (Except.ok 42)
      (Except.ok 43) _ 42 rfl rfl,
   cache_single_flight.2.1 { cached := none, fetches := 0 } _ (Except.ok 42)
      (Except.ok 43) _ 42 rfl rfl,
   cache_single_flight.2.2 true { cached := none, fetches := 0 } _
      (Except.ok 42) (Except.ok 43) _ (some 42) rfl rfl⟩

/-! ## C6: CLI parsing and the prototype-chain slip -/

/-- C6 (code bug): the `key in DEFAULTS` test (line 61) consults the
prototype chain, so the unknown option `--toString` is accepted instead of
raising `Unknown option`: `parseArgs` succeeds and records an own property
shadowing `Object.prototype.toString`.  (`parseNum` is irrelevant here and
instantiated with the constant `none`; path resolution with the
identity.) -/
theorem parseArgs_accepts_toString :
    parseArgs (fun _ => none) (fun s => s) ["--toString", "x"] =
      Except.ok { defaultArgs with extra := [("toString", "x")] } := rfl

/-! ## Build loop invariants (C1, C2, C3, C10) -/

lemma buildStep_none (idx : ℕ → ℤ → ℤ → Option IdxTile) (enc : IdxTile → List ℕ)
    (sz : ℕ) (acc : List TileWrite × List (ℕ × ℤ × ℤ)) (c : ℕ × ℤ × ℤ)
    (h : idx c.1 c.2.1 c.2.2 = none) :
    buildStep idx enc sz acc c = acc := by
  unfold buildStep
  rw [h]

lemma buildStep_some (idx : ℕ → ℤ → ℤ → Option IdxTile) (enc : IdxTile → List ℕ)
    (sz : ℕ) (acc : List TileWrite × List (ℕ × ℤ × ℤ)) (c : ℕ × ℤ × ℤ)
    (t : IdxTile) (h : idx c.1 c.2.1 c.2.2 = some t) :
    buildStep idx enc sz acc c =
      if t.tfeatures = [] then acc
      else
        (acc.1 ++ [(c.1, c.2.1, c.2.2, enc t)],
         if c.1 = sz then acc.2 ++ [(c.1, c.2.1, c.2.2)] else acc.2) := by
  unfold buildStep
  rw [h]

lemma foldl_buildStep_writes_sound (idx : ℕ → ℤ → ℤ → Option IdxTile)
    (enc : IdxTile → List ℕ) (sz : ℕ) :
    ∀ (l : List (ℕ × ℤ × ℤ)) (acc : List TileWrite × List (ℕ × ℤ × ℤ)),
      (∀ w ∈ acc.1, ∃ t, idx w.1 w.2.1 w.2.2.1 = some t ∧ t.tfeatures ≠ []) →
      ∀ w ∈ (l.foldl (buildStep idx enc sz) acc).1,
        ∃ t, idx w.1 w.2.1 w.2.2.1 = some t ∧ t.tfeatures ≠ [] := by
  intro l
  induction l with
  | nil => intro acc hacc w hw; exact hacc w hw
  | cons c rest ih =>
    intro acc hacc
    rw [List.foldl_cons]
    apply ih
    intro w hw
    cases hidx : idx c.1 c.2.1 c.2.2 with
    | none =>
      rw [buildStep_none idx enc sz acc c hidx] at hw
      exact hacc w hw
    | some t =>
      rw [buildStep_some idx enc sz acc c t hidx] at hw
      by_cases hemp : t.tfeatures = []
      · rw [if_pos hemp] at hw
        exact hacc w hw
      · rw [if_neg hemp] at hw
        rcases List.mem_append.mp hw with h | h
        · exact hacc w h
        · have hweq : w = (c.1, c.2.1, c.2.2, enc t) := by simpa using h
          subst hweq
          exact ⟨t, hidx, hemp⟩

lemma foldl_buildStep_coords_sound (idx : ℕ → ℤ → ℤ → Option IdxTile)
    (enc : IdxTile → List ℕ) (sz : ℕ) :
    ∀ (l : List (ℕ × ℤ × ℤ)) (acc : List TileWrite × List (ℕ × ℤ × ℤ)),
      (∀ c ∈ acc.2, c.1 = sz ∧
        ∃ t, idx c.1 c.2.1 c.2.2 = some t ∧ t.tfeatures ≠ [] ∧
          ∃ b, (c.1, c.2.1, c.2.2, b) ∈ acc.1) →
      ∀ c ∈ (l.foldl (buildStep idx enc sz) acc).2, c.1 = sz ∧
        ∃ t, idx c.1 c.2.1 c.2.2 = some t ∧ t.tfeatures ≠ [] ∧
          ∃ b, (c.1, c.2.1, c.2.2, b) ∈ (l.foldl (buildStep idx enc sz) acc).1 := by
  intro l
  induction l with
  | nil => intro acc hacc c hc; exact hacc c hc
  | cons c0 rest ih =>
    intro acc hacc
    rw [List.foldl_cons]
    apply ih
    intro c hc
    cases hidx : idx c0.1 c0.2.1 c0.2.2 with
    | none =>
      rw [buildStep_none idx enc sz acc c0 hidx] at hc ⊢
      exact hacc c hc
    | some t =>
      rw [buildStep_some idx enc sz acc c0 t hidx] at hc ⊢
      by_cases hemp : t.tfeatures = []
      · rw [if_pos hemp] at hc ⊢
        exact hacc c hc
      · rw [if_neg hemp] at hc ⊢
        by_cases hsz : c0.1 = sz
        · rw [if_pos hsz] at hc
          rcases List.mem_append.mp hc with h | h
          · obtain ⟨hz, t', hi, hne, b, hb⟩ := hacc c h
            exact ⟨hz, t', hi, hne, b, List.mem_append_left _ hb⟩
          · have hceq : c = (c0.1, c0.2.1, c0.2.2) := by simpa using h
            subst hceq
            exact ⟨hsz, t, hidx, hemp, enc t,
              List.mem_append_right _ (by simp)⟩
        · rw [if_neg hsz] at hc
          obtain ⟨hz, t', hi, hne, b, hb⟩ := hacc c hc
          exact ⟨hz, t', hi, hne, b, List.mem_append_left _ hb⟩

lemma buildLoop_writes_sound (env : BuildEnv) (input : GeoInput)
    (o : BuildOptions) :
    ∀ w ∈ (buildLoop env input o).1,
      ∃ t, env.getTileIdx input o.minzoom o.maxzoom w.1 w.2.1 w.2.2.1 = some t ∧
        t.tfeatures ≠ [] := by
  unfold buildLoop
  exact foldl_buildStep_writes_sound _ _ _ _ _
    (fun w hw => absurd hw (List.not_mem_nil w))

lemma buildLoop_coords_sound (env : BuildEnv) (input : GeoInput)
    (o : BuildOptions) :
    ∀ c ∈ (buildLoop env input o).2, c.1 = summaryZoomOf o ∧
      ∃ t, env.getTileIdx input o.minzoom o.maxzoom c.1 c.2.1 c.2.2 = some t ∧
        t.tfeatures ≠ [] ∧ ∃ b, (c.1, c.2.1, c.2.2, b) ∈ (buildLoop env input o).1 := by
  unfold buildLoop
  exact foldl_buildStep_coords_sound _ _ _ _ _
    (fun c hc => absurd hc (List.not_mem_nil c))

lemma buildPmtiles_ok_fields (env : BuildEnv) (input : GeoInput)
    (o : BuildOptions) (ws : List FileWrite) (s : SummaryS)
    (h : buildPmtiles env input o = (ws, Except.ok s)) :
    s.tiles = (buildLoop env input o).1.length ∧
    s.tileCoords = (buildLoop env input o).2 ∧
    s.summaryzoom = summaryZoomOf o := by
  simp only [buildPmtiles] at h
  split_ifs at h with h1 h2
  · exact absurd (congrArg Prod.snd h) (by simp)
  · have h2' := congrArg Prod.snd h
    simp only at h2'
    injection h2' with hs
    rw [← hs]
    exact ⟨rfl, rfl, rfl⟩
  · exact absurd (congrArg Prod.snd h) (by simp)

/-- C1: in a successful build, every archive entry comes from a present,
non-empty indexed tile; a scanned coordinate whose tile is absent or empty
is never written; and the recorded tile count equals the number of written
tiles (empty tiles are neither written nor counted). -/
theorem buildPmtiles_skips_empty (env : BuildEnv) (input : GeoInput)
    (o : BuildOptions) (ws : List FileWrite) (s : SummaryS)
    (h : buildPmtiles env input o = (ws, Except.ok s)) :
    (∀ w ∈ (buildLoop env input o).1,
        ∃ t, env.getTileIdx input o.minzoom o.maxzoom w.1 w.2.1 w.2.2.1 = some t ∧
          t.tfeatures ≠ []) ∧
    (∀ c ∈ scanCoords env input o,
        (∀ t, env.getTileIdx input o.minzoom o.maxzoom c.1 c.2.1 c.2.2 = some t →
            t.tfeatures = []) →
        ∀ b, (c.1, c.2.1, c.2.2, b) ∉ (buildLoop env input o).1) ∧
    s.tiles = (buildLoop env input o).1.length := by
  refine ⟨buildLoop_writes_sound env input o, ?_, ?_⟩
  · intro c _ hempty b hmem
    obtain ⟨t, hidx, hne⟩ := buildLoop_writes_sound env input o _ hmem
    exact hne (hempty t hidx)
  · exact (buildPmtiles_ok_fields env input o ws s h).1

/-- C2: when the parsed input is not a feature collection, or the loop
produces zero tiles, `buildPmtiles` fails with an explicit error and the
list of written output files is empty (no archive, no sidecar). -/
theorem buildPmtiles_fails_atomically (env : BuildEnv) (input : GeoInput)
    (o : BuildOptions)
    (h : ¬ (input.typ = "FeatureCollection" ∧ input.features.isSome) ∨
      (buildLoop env input o).1 = []) :
    ∃ e, buildPmtiles env input o = ([], Except.error e) := by
  simp only [buildPmtiles]
  rcases h with h | h
  · rw [if_neg h]
    exact ⟨_, rfl⟩
  · by_cases hv : input.typ = "FeatureCollection" ∧ input.features.isSome
    · rw [if_pos hv,
        if_pos (show (buildLoop env input o).1.length = 0 by rw [h]; rfl)]
      exact ⟨_, rfl⟩
    · rw [if_neg hv]
      exact ⟨_, rfl⟩

/-- C3: the build is deterministic — with the external libraries modelled
as the pure functions the spec requires them to be, two runs on equal
inputs and equal options produce identical output files (byte-identical
archive) and an identical summary. -/
theorem buildPmtiles_deterministic (env : BuildEnv) (i₁ i₂ : GeoInput)
    (o₁ o₂ : BuildOptions) (hi : i₁ = i₂) (ho : o₁ = o₂) :
    buildPmtiles env i₁ o₁ = buildPmtiles env i₂ o₂ := by
  rw [hi, ho]

/-- C10: in a successful build with `minzoom ≤ maxzoom`, the recorded
summary zoom is the requested one clamped into `[minzoom, maxzoom]` (hence
within that range regardless of the request), and every triple in
`tileCoords` is at that zoom and corresponds to a non-empty tile that was
written to the archive. -/
theorem buildSummary_zoom_invariant (env : BuildEnv) (input : GeoInput)
    (o : BuildOptions) (ws : List FileWrite) (s : SummaryS)
    (hzz : o.minzoom ≤ o.maxzoom)
    (h : buildPmtiles env input o = (ws, Except.ok s)) :
    s.summaryzoom = summaryZoomOf o ∧
    o.minzoom ≤ s.summaryzoom ∧ s.summaryzoom ≤ o.maxzoom ∧
    ∀ c ∈ s.tileCoords, c.1 = s.summaryzoom ∧
      ∃ t, env.getTileIdx input o.minzoom o.maxzoom c.1 c.2.1 c.2.2 = some t ∧
        t.tfeatures ≠ [] ∧
        ∃ b, (c.1, c.2.1, c.2.2, b) ∈ (buildLoop env input o).1 := by
  obtain ⟨-, hcoords, hsz⟩ := buildPmtiles_ok_fields env input o ws s h
  refine ⟨hsz, ?_, ?_, ?_⟩
  · rw [hsz]
    exact le_min (le_max_right _ _) hzz
  · rw [hsz]
    exact min_le_right _ _
  · intro c hc
    rw [hcoords] at hc
    rw [hsz]
    exact buildLoop_coords_sound env input o c hc

/-! ## Concrete zoom-0 build evaluation (for the build witnesses)

At zoom 0 the tile-index clamp forces both indices to 0 whatever the
floors evaluate to, so the scan visits exactly `(0,0,0)` and the whole
build can be computed without evaluating any transcendental function. -/

lemma lonLatToTile_zoom_zero (lon lat : ℝ) : lonLatToTile lon lat 0 = (0, 0) := by
  have hz : (2 : ℤ) ^ (0 : ℕ) - 1 = 0 := by norm_num
  have hm : ∀ w : ℤ, max 0 (min ((2 : ℤ) ^ (0 : ℕ) - 1) w) = 0 := by
    intro w
    rw [hz]
    exact max_eq_left (min_le_left 0 w)
  unfold lonLatToTile
  exact Prod.ext (hm _) (hm _)

lemma getTileRange_zoom_zero (b : ℝ × ℝ × ℝ × ℝ) :
    getTileRange b 0 = ⟨0, 0, 0, 0⟩ := by
  simp only [getTileRange]
  rw [lonLatToTile_zoom_zero, lonLatToTile_zoom_zero]
  rfl

lemma scanCoords_buildOptsZ0 (env : BuildEnv) (input : GeoInput) :
    scanCoords env input buildOptsZ0 = [(0, 0, 0)] := by
  unfold scanCoords
  rw [show natRangeIncl buildOptsZ0.minzoom buildOptsZ0.maxzoom = [0] from rfl]
  simp only [List.flatMap_cons, List.flatMap_nil, List.append_nil]
  rw [getTileRange_zoom_zero]
  rfl

lemma buildZ0_eval :
    buildPmtiles envUnit geoInputOk buildOptsZ0 =
      ([("out.pmtiles", FileContent.bin [5]),
        ("out.pmtiles.json", FileContent.json summaryZ0)],
       Except.ok summaryZ0) := by
  have hloop : buildLoop envUnit geoInputOk buildOptsZ0 =
      ([((0 : ℕ), (0 : ℤ), (0 : ℤ), [1])], [((0 : ℕ), (0 : ℤ), (0 : ℤ))]) := by
    unfold buildLoop
    rw [scanCoords_buildOptsZ0]
    rfl
  simp only [buildPmtiles]
  rw [if_pos (show geoInputOk.typ = "FeatureCollection" ∧
        geoInputOk.features.isSome from ⟨rfl, rfl⟩)]
  rw [hloop]
  rfl

/-- Witness for C1: the zoom-0 build succeeds and its recorded tile count
equals the number of written tiles. -/
theorem buildPmtiles_skips_empty_witness :
    buildPmtiles envUnit geoInputOk buildOptsZ0 =
      ([("out.pmtiles", FileContent.bin [5]),
        ("out.pmtiles.json", FileContent.json summaryZ0)],
       Except.ok summaryZ0) ∧
    summaryZ0.tiles = (buildLoop envUnit geoInputOk buildOptsZ0).1.length :=
  ⟨buildZ0_eval,
   (buildPmtiles_skips_empty envUnit geoInputOk buildOptsZ0 _ summaryZ0
      buildZ0_eval).2.2⟩

/-- Witness for C2: the malformed-input scenario produces an error with no
files written. -/
theorem buildPmtiles_fails_atomically_witness :
    ∃ e, buildPmtiles envUnit geoInputBad buildOptsZ0 = ([], Except.error e) :=
  buildPmtiles_fails_atomically envUnit geoInputBad buildOptsZ0
    (Or.inl (by decide))

/-- Witness for C3: determinism applied at a concrete build. -/
theorem buildPmtiles_deterministic_witness :
    buildPmtiles envUnit geoInputOk buildOptsZ0 =
      buildPmtiles envUnit geoInputOk buildOptsZ0 :=
  buildPmtiles_deterministic envUnit geoInputOk geoInputOk buildOptsZ0
    buildOptsZ0 rfl rfl

/-- Witness for C10: the zoom-0 build clamps the requested summary zoom 5
into `[0, 0]` and its only summary coordinate is a written non-empty
tile. -/
theorem buildSummary_zoom_invariant_witness :
    buildOptsZ0.minzoom ≤ buildOptsZ0.maxzoom ∧
    summaryZ0.summaryzoom = summaryZoomOf buildOptsZ0 ∧
    buildOptsZ0.minzoom ≤ summaryZ0.summaryzoom ∧
    summaryZ0.summaryzoom ≤ buildOptsZ0.maxzoom ∧
    (((0 : ℕ), (0 : ℤ), (0 : ℤ)).1 = summaryZ0.summaryzoom ∧
      ∃ t, envUnit.getTileIdx geoInputOk buildOptsZ0.minzoom buildOptsZ0.maxzoom
          0 0 0 = some t ∧ t.tfeatures ≠ [] ∧
        ∃ b, ((0 : ℕ), (0 : ℤ), (0 : ℤ), b) ∈
          (buildLoop envUnit geoInputOk buildOptsZ0).1) :=
  have h := buildSummary_zoom_invariant envUnit geoInputOk buildOptsZ0 _
    summaryZ0 (by decide) buildZ0_eval
  ⟨by decide, h.1, h.2.1, h.2.2.1,
   h.2.2.2 ((0 : ℕ), (0 : ℤ), (0 : ℤ))
     (show _ ∈ [((0 : ℕ), (0 : ℤ), (0 : ℤ))] by simp)⟩

/-! ## C4: tile-math round trip

As stated the claim quantifies over every `(lon, lat)` point, but for a
longitude outside `[-180, 180]` the `x` index is clamped into the world
range and the resulting tile no longer contains the point
(counterexample: `lon = 200` at zoom 0 maps to tile `(0,0)` whose
longitude range is `[-180, 180]`).  With the longitude restricted to
`[-180, 180]` the round trip holds. -/

lemma nonClampedLat_zero : nonClampedLat 0 := by
  unfold nonClampedLat
  rw [abs_zero]
  refine ⟨MAX_LATITUDE_pos.le, ?_⟩
  unfold maxMercatorLat
  have h1 : 0 ≤ Real.sinh Real.pi := by
    rw [← Real.sinh_zero]
    exact Real.sinh_le_sinh.mpr Real.pi_pos.le
  have h2 : 0 ≤ Real.arctan (Real.sinh Real.pi) := by
    rw [← Real.arctan_zero]
    exact Real.arctan_strictMono.monotone h1
  exact mul_nonneg (by positivity) h2

/-- Counterexample for C4: the latitude 0 is inside the non-clamped
Mercator range, yet the zoom-0 tile computed for `(200, 0)` does not
contain the point, because the out-of-range longitude is clamped into the
world tile range. -/
theorem lonLatToTile_roundtrip_counterexample :
    nonClampedLat 0 ∧
    ¬ bboxContains
        (tileBounds 0 (lonLatToTile 200 0 0).1 (lonLatToTile 200 0 0).2)
        200 0 := by
  refine ⟨nonClampedLat_zero, ?_⟩
  intro hcontain
  rw [lonLatToTile_zoom_zero] at hcontain
  obtain ⟨-, h2, -, -⟩ := hcontain
  norm_num [tileBounds, lonFromTile] at h2

lemma lonLatToTile_fst (lon lat : ℝ) (z : ℕ) :
    (lonLatToTile lon lat z).1 =
      max 0 (min ((2 : ℤ) ^ z - 1) ⌊(lon + 180) / 360 * 2 ^ z⌋) := rfl

lemma lonLatToTile_snd (lon lat : ℝ) (z : ℕ) :
    (lonLatToTile lon lat z).2 =
      max 0 (min ((2 : ℤ) ^ z - 1)
        ⌊(1 - Real.log (Real.tan (clampLatitude lat * Real.pi / 180) +
            1 / Real.cos (clampLatitude lat * Real.pi / 180)) / Real.pi) / 2 *
          2 ^ z⌋) := rfl

lemma clampLatitude_eq_self {lat : ℝ} (h : |lat| ≤ MAX_LATITUDE) :
    clampLatitude lat = lat := by
  obtain ⟨h1, h2⟩ := abs_le.mp h
  unfold clampLatitude
  rw [min_eq_right h2, max_eq_right h1]

/-- The clamped floored index of a value `v ∈ [0, 2^z]` brackets `v` into
a unit cell. -/
lemma floor_clamp_le (z : ℕ) (v : ℝ) (h0 : 0 ≤ v) (h1 : v ≤ 2 ^ z) :
    ((max 0 (min ((2 : ℤ) ^ z - 1) ⌊v⌋) : ℤ) : ℝ) ≤ v ∧
    v ≤ ((max 0 (min ((2 : ℤ) ^ z - 1) ⌊v⌋) : ℤ) : ℝ) + 1 := by
  have hfl0 : 0 ≤ ⌊v⌋ := Int.floor_nonneg.mpr h0
  by_cases hle : ⌊v⌋ ≤ (2 : ℤ) ^ z - 1
  · rw [min_eq_right hle, max_eq_right hfl0]
    exact ⟨Int.floor_le v, (Int.lt_floor_add_one v).le⟩
  · push_neg at hle
    have h2 : (2 : ℤ) ^ z ≤ ⌊v⌋ := by omega
    have h3 := Int.le_floor.mp h2
    have hveq : v = (2 : ℝ) ^ z := le_antisymm h1 (by push_cast at h3; exact h3)
    have hminmax : max 0 (min ((2 : ℤ) ^ z - 1) ⌊v⌋) = (2 : ℤ) ^ z - 1 := by
      rw [min_eq_left hle.le]
      refine max_eq_right ?_
      have := pow_pos (show (0 : ℤ) < 2 by norm_num) z
      omega
    rw [hminmax, hveq]
    push_cast
    constructor <;> linarith

/-- C4 (amended): for every zoom `z ≥ 0` and every point with longitude in
`[-180, 180]` and latitude in the non-clamped Mercator range, the tile
computed by `lonLatToTile`, mapped back to geographic bounds by
`tileBounds`, contains the point. -/
theorem lonLatToTile_tileBounds_roundtrip (lon lat : ℝ) (z : ℕ)
    (hl1 : -180 ≤ lon) (hl2 : lon ≤ 180) (hlat : nonClampedLat lat) :
    bboxContains
      (tileBounds z (lonLatToTile lon lat z).1 (lonLatToTile lon lat z).2)
      lon lat := by
  obtain ⟨hclamp, hmerc⟩ := hlat
  have h2pos : (0 : ℝ) < 2 ^ z := by positivity
  -- longitude component
  have hv0 : 0 ≤ (lon + 180) / 360 * (2 : ℝ) ^ z :=
    mul_nonneg (div_nonneg (by linarith) (by norm_num)) h2pos.le
  have hv1 : (lon + 180) / 360 * (2 : ℝ) ^ z ≤ 2 ^ z :=
    mul_le_of_le_one_left h2pos.le ((div_le_one (by norm_num)).mpr (by linarith))
  obtain ⟨hxl, hxr⟩ := floor_clamp_le z _ hv0 hv1
  rw [← lonLatToTile_fst lon lat z] at hxl hxr
  have goal1 : lonFromTile (((lonLatToTile lon lat z).1 : ℤ) : ℝ) z ≤ lon := by
    unfold lonFromTile
    rw [sub_le_iff_le_add, div_mul_eq_mul_div, div_le_iff h2pos]
    have h := mul_le_mul_of_nonneg_right hxl (show (0 : ℝ) ≤ 360 by norm_num)
    have heq : (lon + 180) / 360 * (2 : ℝ) ^ z * 360 = (lon + 180) * 2 ^ z := by
      ring
    linarith
  have goal2 : lon ≤ lonFromTile ((((lonLatToTile lon lat z).1 : ℤ) : ℝ) + 1) z := by
    unfold lonFromTile
    rw [le_sub_iff_add_le, div_mul_eq_mul_div, le_div_iff h2pos]
    have h := mul_le_mul_of_nonneg_right hxr (show (0 : ℝ) ≤ 360 by norm_num)
    have heq : (lon + 180) / 360 * (2 : ℝ) ^ z * 360 = (lon + 180) * 2 ^ z := by
      ring
    linarith
  -- latitude component
  have hcl : clampLatitude lat = lat := clampLatitude_eq_self hclamp
  have hlat90 : |lat| ≤ 85.0511287798066 := by
    rw [MAX_LATITUDE] at hclamp
    exact hclamp
  have habs : |lat * Real.pi / 180| = |lat| * Real.pi / 180 := by
    rw [abs_div, abs_mul, abs_of_pos Real.pi_pos,
      abs_of_pos (show (0 : ℝ) < 180 by norm_num)]
  have hphi : |lat * Real.pi / 180| < Real.pi / 2 := by
    rw [habs, div_lt_iff (show (0 : ℝ) < 180 by norm_num)]
    nlinarith [Real.pi_pos, abs_nonneg lat]
  obtain ⟨hphi1, hphi2⟩ := abs_lt.mp hphi
  have hcos : 0 < Real.cos (lat * Real.pi / 180) :=
    Real.cos_pos_of_mem_Ioo ⟨hphi1, hphi2⟩
  -- log(tan + sec) is arsinh(tan)
  have hsqrt : Real.sqrt (1 + Real.tan (lat * Real.pi / 180) ^ 2) =
      1 / Real.cos (lat * Real.pi / 180) := by
    have h := Real.inv_sqrt_one_add_tan_sq hcos
    have h' := congrArg Inv.inv h
    rw [inv_inv] at h'
    rw [h', one_div]
  have hlog : Real.log (Real.tan (lat * Real.pi / 180) +
      1 / Real.cos (lat * Real.pi / 180)) =
      Real.arsinh (Real.tan (lat * Real.pi / 180)) := by
    rw [← hsqrt]
    conv_rhs => rw [← Real.log_exp (Real.arsinh (Real.tan (lat * Real.pi / 180)))]
    rw [Real.exp_arsinh]
  -- |arsinh (tan φ)| ≤ π
  have hphile : |lat * Real.pi / 180| ≤ Real.arctan (Real.sinh Real.pi) := by
    rw [habs]
    have h := mul_le_mul_of_nonneg_right hmerc
      (show (0 : ℝ) ≤ Real.pi / 180 by positivity)
    have heq : maxMercatorLat * (Real.pi / 180) =
        Real.arctan (Real.sinh Real.pi) := by
      unfold maxMercatorLat
      field_simp
    have heq2 : |lat| * Real.pi / 180 = |lat| * (Real.pi / 180) := by ring
    rw [heq2]
    rw [heq] at h
    exact h
  obtain ⟨hphile1, hphile2⟩ := abs_le.mp hphile
  have harcmem : Real.arctan (Real.sinh Real.pi) ∈
      Set.Ioo (-(Real.pi / 2)) (Real.pi / 2) :=
    ⟨Real.neg_pi_div_two_lt_arctan _, Real.arctan_lt_pi_div_two _⟩
  have hphimem : lat * Real.pi / 180 ∈ Set.Ioo (-(Real.pi / 2)) (Real.pi / 2) :=
    ⟨hphi1, hphi2⟩
  have hnegarcmem : -Real.arctan (Real.sinh Real.pi) ∈
      Set.Ioo (-(Real.pi / 2)) (Real.pi / 2) :=
    ⟨by linarith [harcmem.2], by linarith [harcmem.1]⟩
  have htan_le : Real.tan (lat * Real.pi / 180) ≤ Real.sinh Real.pi := by
    calc Real.tan (lat * Real.pi / 180)
        ≤ Real.tan (Real.arctan (Real.sinh Real.pi)) :=
          Real.strictMonoOn_tan.monotoneOn hphimem harcmem hphile2
      _ = Real.sinh Real.pi := Real.tan_arctan _
  have htan_ge : -Real.sinh Real.pi ≤ Real.tan (lat * Real.pi / 180) := by
    calc (-Real.sinh Real.pi : ℝ)
        = Real.tan (-Real.arctan (Real.sinh Real.pi)) := by
          rw [Real.tan_neg, Real.tan_arctan]
      _ ≤ Real.tan (lat * Real.pi / 180) :=
          Real.strictMonoOn_tan.monotoneOn hnegarcmem hphimem
            (by linarith)
  have ha_le : Real.arsinh (Real.tan (lat * Real.pi / 180)) ≤ Real.pi := by
    calc Real.arsinh (Real.tan (lat * Real.pi / 180))
        ≤ Real.arsinh (Real.sinh Real.pi) := Real.arsinh_le_arsinh.mpr htan_le
      _ = Real.pi := Real.arsinh_sinh _
  have ha_ge : -Real.pi ≤ Real.arsinh (Real.tan (lat * Real.pi / 180)) := by
    calc (-Real.pi : ℝ)
        = Real.arsinh (Real.sinh (-Real.pi)) := (Real.arsinh_sinh _).symm
      _ = Real.arsinh (-Real.sinh Real.pi) := by rw [Real.sinh_neg]
      _ ≤ Real.arsinh (Real.tan (lat * Real.pi / 180)) :=
          Real.arsinh_le_arsinh.mpr htan_ge
  -- bounds on the Mercator y value
  have hdiv_le : Real.arsinh (Real.tan (lat * Real.pi / 180)) / Real.pi ≤ 1 :=
    (div_le_one Real.pi_pos).mpr ha_le
  have hdiv_ge : -1 ≤ Real.arsinh (Real.tan (lat * Real.pi / 180)) / Real.pi := by
    rw [le_div_iff Real.pi_pos]
    linarith
  have hw0 : 0 ≤ (1 - Real.arsinh (Real.tan (lat * Real.pi / 180)) / Real.pi) /
      2 * (2 : ℝ) ^ z :=
    mul_nonneg (by linarith) h2pos.le
  have hw1 : (1 - Real.arsinh (Real.tan (lat * Real.pi / 180)) / Real.pi) / 2 *
      (2 : ℝ) ^ z ≤ 2 ^ z :=
    mul_le_of_le_one_left h2pos.le (by linarith)
  obtain ⟨hyl, hyr⟩ := floor_clamp_le z _ hw0 hw1
  have hy : (lonLatToTile lon lat z).2 =
      max 0 (min ((2 : ℤ) ^ z - 1)
        ⌊(1 - Real.arsinh (Real.tan (lat * Real.pi / 180)) / Real.pi) / 2 *
          2 ^ z⌋) := by
    rw [lonLatToTile_snd, hcl, hlog]
  rw [← hy] at hyl hyr
  -- latFromTile in sinh/arctan form
  have key : ∀ t : ℝ, latFromTile t z =
      180 / Real.pi *
        Real.arctan (Real.sinh (Real.pi - 2 * Real.pi * t / 2 ^ z)) := by
    intro t
    simp only [latFromTile]
    rw [Real.sinh_eq]
    congr 1
    congr 1
    ring
  have hmono : ∀ s t : ℝ, s ≤ t → latFromTile t z ≤ latFromTile s z := by
    intro s t hst
    rw [key s, key t]
    have h1 : Real.pi - 2 * Real.pi * t / 2 ^ z ≤
        Real.pi - 2 * Real.pi * s / 2 ^ z := by
      have h2 : 2 * Real.pi * s / 2 ^ z ≤ 2 * Real.pi * t / 2 ^ z := by
        gcongr
      linarith
    exact mul_le_mul_of_nonneg_left
      (Real.arctan_strictMono.monotone (Real.sinh_le_sinh.mpr h1))
      (by positivity)
  have hpt : Real.pi - 2 * Real.pi *
      ((1 - Real.arsinh (Real.tan (lat * Real.pi / 180)) / Real.pi) / 2 *
        (2 : ℝ) ^ z) / 2 ^ z =
      Real.arsinh (Real.tan (lat * Real.pi / 180)) := by
    field_simp
    ring
  have hlat_eq : latFromTile
      ((1 - Real.arsinh (Real.tan (lat * Real.pi / 180)) / Real.pi) / 2 *
        (2 : ℝ) ^ z) z = lat := by
    rw [key, hpt, Real.sinh_arsinh, Real.arctan_tan hphi1 hphi2]
    field_simp
    ring
  have goal4 : lat ≤ latFromTile (((lonLatToTile lon lat z).2 : ℤ) : ℝ) z := by
    have h := hmono _ _ hyl
    rw [hlat_eq] at h
    exact h
  have goal3 : latFromTile ((((lonLatToTile lon lat z).2 : ℤ) : ℝ) + 1) z ≤ lat := by
    have h := hmono _ _ hyr
    rw [hlat_eq] at h
    exact h
  exact ⟨goal1, goal2, goal3, goal4⟩

/-- Witness for the amended C4 at the origin and zoom 0. -/
theorem lonLatToTile_tileBounds_roundtrip_witness :
    (-180 : ℝ) ≤ 0 ∧ (0 : ℝ) ≤ 180 ∧ nonClampedLat 0 ∧
    bboxContains
      (tileBounds 0 (lonLatToTile 0 0 0).1 (lonLatToTile 0 0 0).2) 0 0 :=
  ⟨by norm_num, by norm_num, nonClampedLat_zero,
   lonLatToTile_tileBounds_roundtrip 0 0 0 (by norm_num) (by norm_num)
     nonClampedLat_zero⟩

end FarAtlas
